import Mathlib

/-!
Verification of the process-lifecycle orchestrator of the xiaohongshu-mcp
manager: stale Chrome profile-lock reclamation (`cleanupChromeLocks`,
`isStaleProfile`, `removeLockFile`, `isProcessAlive`), the log
administration handlers (`DeleteDebugLogs`, `DownloadDebugLogs`) and the
auto-start recovery loop (`autoStartUsers`).

The Go code is shallowly embedded: byte strings are `List Char`, the
filesystem is a finite association list from paths (component lists) to
entries, process liveness and the host name are environment fields, and
each handler is a pure function from an environment to its observable
result (removed paths, log events, HTTP-level outcome).
-/

namespace XhsMcp

/-! ### Go string primitives -/

/-- Whitespace as used by Go `strings.TrimSpace` / `strings.Fields`
(`unicode.IsSpace` restricted to the Latin-1 characters that can occur in
a `SingletonCookie` artifact: space, tab, newline, vertical tab, form
feed, carriage return, NEL, NBSP). -/
def goIsSpace (c : Char) : Bool :=
  c = ' ' || c = '\t' || c = '\n' || c = Char.ofNat 11 || c = Char.ofNat 12 ||
  c = '\r' || c = Char.ofNat 133 || c = Char.ofNat 160

/-- Go `strings.TrimSpace`: drop leading and trailing whitespace. -/
def trimSpace (l : List Char) : List Char :=
  ((l.dropWhile goIsSpace).reverse.dropWhile goIsSpace).reverse

/-- Go `strings.Split` with a one-character separator: the result is never
empty, and joining it with the separator gives back the input. -/
def splitOnChar (sep : Char) : List Char → List (List Char)
  | [] => [[]]
  | c :: cs =>
    if c = sep then [] :: splitOnChar sep cs
    else
      match splitOnChar sep cs with
      | [] => [[c]]
      | f :: rest => (c :: f) :: rest

theorem dropWhile_length_le (p : Char → Bool) :
    ∀ l : List Char, (l.dropWhile p).length ≤ l.length := by
  intro l
  induction l with
  | nil => simp [List.dropWhile]
  | cons c cs ih =>
    simp only [List.dropWhile]
    by_cases h : p c
    · simp only [h]
      exact Nat.le_trans ih (Nat.le_succ _)
    · simp only [h]
      simp

/-- Go `strings.Fields`: maximal runs of non-whitespace characters. -/
def goFields (l : List Char) : List (List Char) :=
  match h : l.dropWhile goIsSpace with
  | [] => []
  | x :: xs =>
    (x :: xs.takeWhile (fun c => !goIsSpace c)) ::
      goFields (xs.dropWhile (fun c => !goIsSpace c))
termination_by l.length
decreasing_by
  have h1 : (l.dropWhile goIsSpace).length ≤ l.length := dropWhile_length_le goIsSpace l
  have h2 : (xs.dropWhile fun c => !goIsSpace c).length ≤ xs.length :=
    dropWhile_length_le _ xs
  simp only [h] at h1
  simp only [List.length_cons] at h1
  omega

/-- Value of a digit string, most-significant first. -/
def digitsVal (l : List Char) : Nat :=
  l.foldl (fun acc c => acc * 10 + (c.toNat - 48)) 0

/-- Go `strconv.Atoi`, as used with `pid, _ = strconv.Atoi(s)`: an optional
sign followed by at least one ASCII digit yields the value, anything else
leaves `pid` at its zero value.  (Integer overflow of the 64-bit `int` is
not modelled; PID strings are far below the bound.) -/
def atoi (l : List Char) : Int :=
  match l with
  | [] => 0
  | c :: rest =>
    if c = '+' then
      if !rest.isEmpty && rest.all Char.isDigit then (digitsVal rest : Int) else 0
    else if c = '-' then
      if !rest.isEmpty && rest.all Char.isDigit then -(digitsVal rest : Int) else 0
    else
      if l.all Char.isDigit then (digitsVal l : Int) else 0

/-- The parsing block of `isStaleProfile` (browser/browser.go lines
215-237): NUL-separated fields are tried first (hostname = field 0,
pid = field 1); only when the content has no NUL byte does it fall back to
whitespace-separated fields of the trimmed content (hostname = first
field, pid = last field).  A missing field leaves the Go zero value
(`""` resp. `0`). -/
def parseSingletonCookie (content : List Char) : List Char × Int :=
  if Char.ofNat 0 ∈ content then
    let parts := splitOnChar (Char.ofNat 0) content
    let hostname := parts.headD []
    let pid := if 2 ≤ parts.length then atoi (parts.getD 1 []) else 0
    (hostname, pid)
  else
    let parts := goFields (trimSpace content)
    let hostname := parts.headD []
    let pid := if 2 ≤ parts.length then atoi (parts.getD (parts.length - 1) []) else 0
    (hostname, pid)

/-! ### Filesystem and host environment model -/

/-- A path is its list of components, so `filepath.Join dir name` is
`dir ++ [name]`. -/
abbrev FsPath := List String

/-- File kind as observed through `os.Lstat` mode bits. -/
inductive FileKind where
  | regular
  | symlink
  | socket
  | directory
  | other
deriving DecidableEq

/-- A directory entry: its kind, whether a read of it succeeds, and the
bytes a successful read yields. -/
structure FSEntry where
  kind : FileKind
  readable : Bool
  content : List Char
deriving DecidableEq

/-- The filesystem: a finite association list from paths to entries. -/
abbrev FS := List (FsPath × FSEntry)

def fsLookup : FS → FsPath → Option FSEntry
  | [], _ => none
  | (q, e) :: rest, p => if q = p then some e else fsLookup rest p

def fsErase : FS → FsPath → FS
  | [], _ => []
  | (q, e) :: rest, p => if q = p then fsErase rest p else (q, e) :: fsErase rest p

/-- Outcome of `os.ReadFile`. -/
inductive ReadResult where
  | notExist
  | readErr
  | ok (content : List Char)
deriving DecidableEq

/-- `os.ReadFile`: a missing entry is `IsNotExist`; a directory, an
unreadable entry or a dangling symlink gives another error; otherwise the
entry's bytes are returned. -/
def readFile (fs : FS) (p : FsPath) : ReadResult :=
  match fsLookup fs p with
  | none => ReadResult.notExist
  | some e =>
    if e.kind = FileKind.directory then ReadResult.readErr
    else if e.readable then ReadResult.ok e.content
    else ReadResult.readErr

/-- The logrus events emitted by the reclamation code, one constructor per
call site. -/
inductive LogMsg where
  | createDirFailed
  | profileActive
  | cleanedLock (p : FsPath)
  | readCookieFailed
  | hostnameFailed
  | staleMismatch (recorded current : List Char)
  | staleDeadPid (pid : Int)
  | mayBeInUse (pid : Int)
deriving DecidableEq

/-- Host environment of one `cleanupChromeLocks` run: the filesystem,
whether `os.MkdirAll(userDataDir)` succeeds, the `os.Hostname` result
(`none` = error), which `/proc/<pid>` paths exist, and `runtime.GOOS`. -/
structure Env where
  fs : FS
  mkdirOk : Bool
  hostname : Option (List Char)
  procExists : Int → Bool
  goos : String

/-- browser/browser.go `isProcessAlive`: on Windows always false
(deliberately, per the comment: assume not running, allow cleanup);
otherwise true exactly when `/proc/<pid>` exists — the `kill -0` fallback
mentioned for macOS/FreeBSD is not implemented, the function just returns
false there (where no `/proc/<pid>` path exists). -/
def isProcessAlive (env : Env) (pid : Int) : Bool :=
  if env.goos = "windows" then false
  else if env.procExists pid then true
  else false

/-- browser/browser.go `isStaleProfile`, returning the boolean and the log
events of the run.  Mirrors the source: read `SingletonCookie`, fail open
(stale) when absent, unreadable or empty; parse hostname and pid; stale on
`os.Hostname` error; stale when a nonempty recorded hostname differs from
the current one; for a positive pid defer to liveness; otherwise stale. -/
def isStaleProfile (env : Env) (userDataDir : FsPath) : Bool × List LogMsg :=
  match readFile env.fs (userDataDir ++ ["SingletonCookie"]) with
  | ReadResult.notExist => (true, [])
  | ReadResult.readErr => (true, [LogMsg.readCookieFailed])
  | ReadResult.ok content =>
    if content = [] then (true, [])
    else
      let parsed := parseSingletonCookie content
      match env.hostname with
      | none => (true, [LogMsg.hostnameFailed])
      | some current =>
        if parsed.1 ≠ [] ∧ parsed.1 ≠ current then
          (true, [LogMsg.staleMismatch parsed.1 current])
        else if 0 < parsed.2 then
          if isProcessAlive env parsed.2 then (false, [LogMsg.mayBeInUse parsed.2])
          else (true, [LogMsg.staleDeadPid parsed.2])
        else (true, [])

/-- Result of a removal pass: the filesystem afterwards, the paths
actually removed, and the log events. -/
structure RmResult where
  fs : FS
  removed : List FsPath
  logs : List LogMsg

/-- browser/browser.go `removeLockFile`: `os.Lstat` the path; absent is a
silent no-op; a symlink, regular file or socket is removed (and logged);
any other kind (e.g. a directory) is left alone. -/
def removableKind (k : FileKind) : Bool :=
  match k with
  | FileKind.symlink => true
  | FileKind.regular => true
  | FileKind.socket => true
  | _ => false

def removeLockFile (fs : FS) (p : FsPath) : RmResult :=
  match fsLookup fs p with
  | none => ⟨fs, [], []⟩
  | some info =>
    if removableKind info.kind then ⟨fsErase fs p, [p], [LogMsg.cleanedLock p]⟩
    else ⟨fs, [], []⟩

/-- The per-name removal loop of `cleanupChromeLocks`. -/
def removeLockFiles (fs : FS) : List FsPath → RmResult
  | [] => ⟨fs, [], []⟩
  | p :: ps =>
    let r := removeLockFile fs p
    let r2 := removeLockFiles r.fs ps
    ⟨r2.fs, r.removed ++ r2.removed, r.logs ++ r2.logs⟩

/-- The lock file names cleaned by `cleanupChromeLocks`. -/
def lockFileNames : List String := ["SingletonLock", "SingletonSocket", "SingletonCookie"]

def rootLockPaths (dir : FsPath) : List FsPath :=
  lockFileNames.map (fun n => dir ++ [n])

def defaultLockPaths (dir : FsPath) : List FsPath :=
  lockFileNames.map (fun n => dir ++ ["Default", n])

/-- Result of a full `cleanupChromeLocks` run. -/
structure CleanupResult where
  fs : FS
  removed : List FsPath
  logs : List LogMsg

/-- browser/browser.go `cleanupChromeLocks`: ensure the directory exists
(abort on failure), skip everything when the profile is not stale,
otherwise remove the three lock names in the profile root and — when
`os.Stat` finds a `Default` subdirectory — in `Default` as well.
(`os.MkdirAll`'s creation of a missing directory is not modelled: no later
step of the function observes the directory entry itself.) -/
def cleanupChromeLocks (env : Env) (userDataDir : FsPath) : CleanupResult :=
  if env.mkdirOk = false then ⟨env.fs, [], [LogMsg.createDirFailed]⟩
  else
    let st := isStaleProfile env userDataDir
    if st.1 = false then ⟨env.fs, [], st.2 ++ [LogMsg.profileActive]⟩
    else
      let r1 := removeLockFiles env.fs (rootLockPaths userDataDir)
      if (fsLookup r1.fs (userDataDir ++ ["Default"])).isSome then
        let r2 := removeLockFiles r1.fs (defaultLockPaths userDataDir)
        ⟨r2.fs, r1.removed ++ r2.removed, st.2 ++ r1.logs ++ r2.logs⟩
      else ⟨r1.fs, r1.removed, st.2 ++ r1.logs⟩

/-- A path currently present with a kind `removeLockFile` deletes. -/
def removablePath (fs : FS) (p : FsPath) : Bool :=
  match fsLookup fs p with
  | none => false
  | some e => removableKind e.kind

/-- Specification-side characterisation of what a stale-profile cleanup
removes: every lock name present with a removable kind, in the profile
root and — if `Default` is present — in `Default`.  Proven equal to the
code's behaviour below. -/
def expectedRemovals (fs : FS) (dir : FsPath) : List FsPath :=
  (rootLockPaths dir).filter (fun p => removablePath fs p) ++
    (if (fsLookup fs (dir ++ ["Default"])).isSome then
      (defaultLockPaths dir).filter (fun p => removablePath fs p)
    else [])

/-! ### cmd/manager/log_admin_handlers.go: DeleteDebugLogs -/

/-- Observable outcome of `DeleteDebugLogs` (HTTP status + which JSON body
was produced). -/
inductive ClearResult where
  | badRequest
  | userNotFound
  | clearedNothing
  | cleared
  | conflictRunning
  | internalError
deriving DecidableEq

/-- Environment of one `DeleteDebugLogs` call: the known user ids, whether
`os.Stat` of the derived log file reports `IsNotExist`, whether
`os.Truncate` succeeds, whether the `os.OpenFile(..., O_TRUNC, ...)`
fallback succeeds, and the worker's `GetStatus(id).Running` flag.
(The derived log path itself is irrelevant to the outcome and elided;
`DerivePaths` lives outside this repository's sources.) -/
structure ClearEnv where
  users : List (List Char)
  logExists : Bool
  truncateOk : Bool
  openTruncOk : Bool
  running : Bool

/-- cmd/manager/log_admin_handlers.go `DeleteDebugLogs`: empty trimmed id
→ 400; unknown user → 404; missing log file → 200 "nothing to clear";
`os.Truncate` → 200; else `O_TRUNC` reopen → 200; else 409 "process
running, stop it first" when the worker is running, 500 otherwise.
(The first `GetStatus` call in the source has an empty body and no
effect.) -/
def deleteDebugLogs (env : ClearEnv) (idRaw : List Char) : ClearResult :=
  let id := trimSpace idRaw
  if id = [] then ClearResult.badRequest
  else if env.users.contains id = false then ClearResult.userNotFound
  else if env.logExists = false then ClearResult.clearedNothing
  else if env.truncateOk then ClearResult.cleared
  else if env.openTruncOk then ClearResult.cleared
  else if env.running then ClearResult.conflictRunning
  else ClearResult.internalError

/-! ### cmd/manager/log_admin_handlers.go: DownloadDebugLogs -/

/-- Outcome of `os.Open` on the log file. -/
inductive OpenResult where
  | notExist
  | openFailed
  | opened (content : List Char)
deriving DecidableEq

/-- Observable outcome of `DownloadDebugLogs`: either an error response or
a 200 whose declared `Content-Length` and transmitted body bytes are
recorded.  (`Content-Type`, `Content-Disposition` and `Last-Modified`
carry no verified content and are elided.) -/
inductive DlResult where
  | badRequest
  | userNotFound
  | notFound
  | internalError
  | ok (contentLength : Nat) (body : List Char)
deriving DecidableEq

/-- Environment of one `DownloadDebugLogs` call: the known user ids, the
result of opening the log file (content as of the `f.Stat()` size
snapshot), whether that `Stat` fails, and the bytes the worker appends to
the file after the snapshot, during the transfer. -/
structure DlEnv where
  users : List (List Char)
  openResult : OpenResult
  statFailed : Bool
  growth : List Char

/-- cmd/manager/log_admin_handlers.go `DownloadDebugLogs`: empty trimmed
id → 400; unknown user → 404; `os.Open` IsNotExist → 404, other open error
→ 500; `f.Stat` error → 500; otherwise snapshot `fileSize := stat.Size()`,
declare it as `Content-Length` and `io.CopyN` exactly `fileSize` bytes
from the (possibly concurrently grown) file. -/
def downloadDebugLogs (env : DlEnv) (idRaw : List Char) : DlResult :=
  let id := trimSpace idRaw
  if id = [] then DlResult.badRequest
  else if env.users.contains id = false then DlResult.userNotFound
  else
    match env.openResult with
    | OpenResult.notExist => DlResult.notFound
    | OpenResult.openFailed => DlResult.internalError
    | OpenResult.opened content =>
      if env.statFailed then DlResult.internalError
      else
        let fileSize := content.length
        DlResult.ok fileSize ((content ++ env.growth).take fileSize)

/-! ### cmd/manager main.go: autoStartUsers -/

/-- The fields of `UserConfig` the auto-start loop reads. -/
structure UserConfig where
  id : List Char
  autoStart : Bool

/-- One auto-start attempt's outcome: success line or logged error, with
the user id. -/
inductive StartEvent where
  | ok (id : List Char)
  | failed (id : List Char)
deriving DecidableEq

def StartEvent.uid : StartEvent → List Char
  | StartEvent.ok i => i
  | StartEvent.failed i => i

/-- The serial loop body of `autoStartUsers`: each user gets a fresh
45-second context and one `proc.StartUser` attempt (abstracted as
`start id 45`); failure is logged and the loop continues. -/
def autoStartLoop (start : List Char → Nat → Bool) : List UserConfig → List StartEvent
  | [] => []
  | u :: rest =>
    (if start u.id 45 then StartEvent.ok u.id else StartEvent.failed u.id) ::
      autoStartLoop start rest

/-- cmd/manager main.go `autoStartUsers`: filter the stored users to those
with `AutoStart` set, return early when none, otherwise start them one at
a time in list order. -/
def autoStartUsers (start : List Char → Nat → Bool) (users : List UserConfig) :
    List StartEvent :=
  let toStart := users.filter (fun u => u.autoStart)
  if toStart.isEmpty then [] else autoStartLoop start toStart

/-! ### Concrete environments used to instantiate the theorems -/

/-- A `SingletonCookie` content in the NUL-separated Chrome encoding with
hostname `myhost` and pid 1234. -/
def cookieMyhost : List Char :=
  "myhost".data ++ [Char.ofNat 0] ++ "1234".data ++ [Char.ofNat 0]

/-- A NUL-separated cookie content with an empty hostname field and
pid 1234. -/
def cookieNoHost : List Char :=
  [Char.ofNat 0] ++ "1234".data ++ [Char.ofNat 0]

/-- Host `myhost`, profile whose cookie records `myhost` and the live
pid 1234. -/
def envSameHostAlive : Env :=
  { fs := [ (["profile", "SingletonCookie"],
             { kind := FileKind.regular, readable := true, content := cookieMyhost }),
            (["profile", "SingletonLock"],
             { kind := FileKind.symlink, readable := false, content := [] }) ],
    mkdirOk := true,
    hostname := some "myhost".data,
    procExists := fun p => p == 1234,
    goos := "linux" }

/-- Host `hostb`, profile whose cookie records an empty hostname and the
live pid 1234. -/
def envEmptyHostAlive : Env :=
  { fs := [ (["profile2", "SingletonCookie"],
             { kind := FileKind.regular, readable := true, content := cookieNoHost }),
            (["profile2", "SingletonLock"],
             { kind := FileKind.regular, readable := true, content := [] }) ],
    mkdirOk := true,
    hostname := some "hostb".data,
    procExists := fun p => p == 1234,
    goos := "linux" }

/-- A second copy of the empty-hostname live-pid situation, instantiating
the empty-hostname claim. -/
def envEmptyHostAlive2 : Env :=
  { fs := [ (["pa", "SingletonCookie"],
             { kind := FileKind.regular, readable := true, content := cookieNoHost }),
            (["pa", "SingletonSocket"],
             { kind := FileKind.socket, readable := false, content := [] }) ],
    mkdirOk := true,
    hostname := some "hostc".data,
    procExists := fun p => p == 1234,
    goos := "linux" }

/-- Host `hosta`, profile whose cookie records the other host `hostx`. -/
def envOtherHost : Env :=
  { fs := [ (["pb", "SingletonCookie"],
             { kind := FileKind.regular, readable := true,
               content := "hostx".data ++ [Char.ofNat 0] ++ "77".data ++ [Char.ofNat 0] }),
            (["pb", "SingletonLock"],
             { kind := FileKind.symlink, readable := false, content := [] }),
            (["pb", "Default"],
             { kind := FileKind.directory, readable := true, content := [] }),
            (["pb", "Default", "SingletonCookie"],
             { kind := FileKind.regular, readable := true, content := [] }) ],
    mkdirOk := true,
    hostname := some "hosta".data,
    procExists := fun p => p == 77,
    goos := "linux" }

/-- A profile with no cookie artifact at all. -/
def envNoCookie : Env :=
  { fs := [ (["p3", "SingletonLock"],
             { kind := FileKind.regular, readable := true, content := [] }) ],
    mkdirOk := true,
    hostname := some "hosta".data,
    procExists := fun _ => false,
    goos := "linux" }

/-- Windows host whose cookie records the current host and a pid whose
`/proc` entry would exist. -/
def envWindows : Env :=
  { fs := [ (["p8", "SingletonCookie"],
             { kind := FileKind.regular, readable := true,
               content := "hosta".data ++ [Char.ofNat 0] ++ "99".data ++ [Char.ofNat 0] }) ],
    mkdirOk := true,
    hostname := some "hosta".data,
    procExists := fun p => p == 99,
    goos := "windows" }

/-- A stale profile where one lock name is occupied by a directory. -/
def envDirLock : Env :=
  { fs := [ (["p9", "SingletonLock"],
             { kind := FileKind.directory, readable := true, content := [] }),
            (["p9", "SingletonSocket"],
             { kind := FileKind.socket, readable := false, content := [] }) ],
    mkdirOk := true,
    hostname := some "hosta".data,
    procExists := fun _ => false,
    goos := "linux" }

/-- A clear-logs environment: user `u1` exists, the log file exists, the
truncate path succeeds. -/
def clearEnvBase : ClearEnv :=
  { users := ["u1".data, "u2".data],
    logExists := true,
    truncateOk := false,
    openTruncOk := false,
    running := true }

/-- A download environment whose log grows by 1000 bytes after the size
snapshot. -/
def dlEnvGrowing : DlEnv :=
  { users := ["u1".data],
    openResult := OpenResult.opened "hello log line".data,
    statFailed := false,
    growth := List.replicate 1000 'x' }

/-! ### Helper lemmas about the filesystem and the removal loop -/

theorem fsLookup_fsErase (fs : FS) (p q : FsPath) :
    fsLookup (fsErase fs p) q = if q = p then none else fsLookup fs q := by
  induction fs with
  | nil => simp [fsErase, fsLookup]
  | cons hd rest ih =>
    obtain ⟨r, e⟩ := hd
    by_cases hrp : r = p
    · subst hrp
      simp only [fsErase, eq_self_iff_true, if_true]
      rw [ih]
      by_cases hqr : q = r
      · simp [hqr]
      · have hrq : ¬ r = q := fun h => hqr h.symm
        simp [fsLookup, hqr, hrq]
    · simp only [fsErase, if_neg hrp]
      by_cases hrq : r = q
      · subst hrq
        simp [fsLookup, hrp]
      · simp [fsLookup, hrq, ih]

theorem removeLockFile_lookup (fs : FS) (p q : FsPath) (h : q ≠ p) :
    fsLookup (removeLockFile fs p).fs q = fsLookup fs q := by
  unfold removeLockFile
  cases hE : fsLookup fs p with
  | none => rfl
  | some info =>
    by_cases hk : removableKind info.kind
    · simp only [hk, if_true]
      rw [fsLookup_fsErase]
      simp [h]
    · simp [hk]

theorem removeLockFile_removed (fs : FS) (p : FsPath) :
    (removeLockFile fs p).removed = if removablePath fs p then [p] else [] := by
  unfold removeLockFile removablePath
  cases hE : fsLookup fs p with
  | none => simp
  | some info =>
    by_cases hk : removableKind info.kind
    · simp [hk]
    · simp [hk]

theorem removeLockFile_removablePath (fs : FS) (p q : FsPath) (h : q ≠ p) :
    removablePath (removeLockFile fs p).fs q = removablePath fs q := by
  unfold removablePath
  rw [removeLockFile_lookup fs p q h]

theorem removeLockFiles_removed_subset (fs : FS) (ps : List FsPath) :
    ∀ q ∈ (removeLockFiles fs ps).removed, q ∈ ps := by
  induction ps generalizing fs with
  | nil => simp [removeLockFiles]
  | cons p rest ih =>
    intro q hq
    simp only [removeLockFiles, List.mem_append] at hq
    rcases hq with hq | hq
    · rw [removeLockFile_removed] at hq
      by_cases hr : removablePath fs p
      · simp only [hr, if_true, List.mem_singleton] at hq
        simp [hq]
      · simp [hr] at hq
    · exact List.mem_cons_of_mem p (ih _ q hq)

theorem removablePath_after_remove (fs : FS) (p q : FsPath)
    (h : removablePath (removeLockFile fs p).fs q = true) :
    removablePath fs q = true := by
  by_cases hpq : q = p
  · subst hpq
    unfold removeLockFile at h
    cases hE : fsLookup fs q with
    | none =>
      rw [hE] at h
      exact h
    | some info =>
      rw [hE] at h
      by_cases hk : removableKind info.kind
      · simp only [hk, if_true] at h
        unfold removablePath at h
        rw [fsLookup_fsErase] at h
        simp at h
      · simp only [hk, if_false] at h
        exact h
  · rw [removeLockFile_removablePath fs p q hpq] at h
    exact h

theorem removeLockFiles_removable (fs : FS) (ps : List FsPath) :
    ∀ q ∈ (removeLockFiles fs ps).removed, removablePath fs q = true := by
  induction ps generalizing fs with
  | nil => simp [removeLockFiles]
  | cons p rest ih =>
    intro q hq
    simp only [removeLockFiles, List.mem_append] at hq
    rcases hq with hq | hq
    · rw [removeLockFile_removed] at hq
      by_cases hr : removablePath fs p
      · simp only [hr, if_true, List.mem_singleton] at hq
        subst hq
        exact hr
      · simp [hr] at hq
    · exact removablePath_after_remove fs p q (ih (removeLockFile fs p).fs q hq)

theorem removeLockFiles_lookup (fs : FS) (ps : List FsPath) (q : FsPath)
    (h : q ∉ (removeLockFiles fs ps).removed) :
    fsLookup (removeLockFiles fs ps).fs q = fsLookup fs q := by
  induction ps generalizing fs with
  | nil => simp [removeLockFiles]
  | cons p rest ih =>
    simp only [removeLockFiles, List.mem_append] at h ⊢
    push_neg at h
    have h1 := h.1
    have h2 := h.2
    rw [ih _ h2]
    rw [removeLockFile_removed] at h1
    by_cases hr : removablePath fs p
    · have hqp : q ≠ p := by
        simp only [hr, if_true, List.mem_singleton] at h1
        exact h1
      exact removeLockFile_lookup fs p q hqp
    · unfold removeLockFile
      unfold removablePath at hr
      cases hE : fsLookup fs p with
      | none => rfl
      | some info =>
        rw [hE] at hr
        simp only [Bool.not_eq_true] at hr
        simp [hr]

theorem removeLockFiles_removablePath (fs : FS) (ps : List FsPath) (q : FsPath)
    (h : q ∉ (removeLockFiles fs ps).removed) :
    removablePath (removeLockFiles fs ps).fs q = removablePath fs q := by
  unfold removablePath
  rw [removeLockFiles_lookup fs ps q h]

theorem removeLockFiles_removed_eq (fs : FS) (ps : List FsPath) (hnd : ps.Nodup) :
    (removeLockFiles fs ps).removed = ps.filter (fun p => removablePath fs p) := by
  induction ps generalizing fs with
  | nil => simp [removeLockFiles]
  | cons p rest ih =>
    have hpn : p ∉ rest := (List.nodup_cons.mp hnd).1
    have hnd2 : rest.Nodup := (List.nodup_cons.mp hnd).2
    simp only [removeLockFiles]
    rw [removeLockFile_removed, ih _ hnd2]
    have hcong : rest.filter (fun x => removablePath (removeLockFile fs p).fs x) =
        rest.filter (fun x => removablePath fs x) := by
      apply List.filter_congr
      intro x hx
      have hxp : x ≠ p := fun he => hpn (he ▸ hx)
      rw [removeLockFile_removablePath fs p x hxp]
    rw [hcong]
    by_cases hr : removablePath fs p
    · simp [hr, List.filter_cons]
    · simp [hr, List.filter_cons]

theorem rootLockPaths_nodup (dir : FsPath) : (rootLockPaths dir).Nodup := by
  apply List.Nodup.map
  · intro a b hab
    have h2 : [a] = [b] := List.append_cancel_left hab
    simpa using h2
  · decide

theorem defaultLockPaths_nodup (dir : FsPath) : (defaultLockPaths dir).Nodup := by
  apply List.Nodup.map
  · intro a b hab
    have h2 : ["Default", a] = ["Default", b] := List.append_cancel_left hab
    simpa using h2
  · decide

theorem defaultDir_not_root (dir : FsPath) : (dir ++ ["Default"]) ∉ rootLockPaths dir := by
  intro hmem
  simp only [rootLockPaths, List.mem_map] at hmem
  obtain ⟨n, hn, he⟩ := hmem
  have h2 : [n] = ["Default"] := List.append_cancel_left he
  have h3 : n = "Default" := by simpa using h2
  subst h3
  revert hn
  decide

theorem default_not_in_root (dir : FsPath) (p : FsPath)
    (hp : p ∈ defaultLockPaths dir) : p ∉ rootLockPaths dir := by
  intro hmem
  simp only [defaultLockPaths, List.mem_map] at hp
  simp only [rootLockPaths, List.mem_map] at hmem
  obtain ⟨n, _, hne⟩ := hp
  obtain ⟨m, _, hme⟩ := hmem
  rw [← hne] at hme
  have h2 : [m] = ["Default", n] := List.append_cancel_left hme
  simpa using congrArg List.length h2

/-- Key lemma: when `mkdirOk` holds and the profile is judged stale, the
cleanup removes exactly the present removable lock paths. -/
theorem cleanupChromeLocks_stale (env : Env) (dir : FsPath)
    (hmk : env.mkdirOk = true)
    (hst : (isStaleProfile env dir).1 = true) :
    (cleanupChromeLocks env dir).removed = expectedRemovals env.fs dir := by
  have hroot : (removeLockFiles env.fs (rootLockPaths dir)).removed
      = (rootLockPaths dir).filter (fun p => removablePath env.fs p) :=
    removeLockFiles_removed_eq _ _ (rootLockPaths_nodup dir)
  have hdefq : (dir ++ ["Default"]) ∉ (removeLockFiles env.fs (rootLockPaths dir)).removed := by
    intro hmem
    exact defaultDir_not_root dir (removeLockFiles_removed_subset _ _ _ hmem)
  have hlook : fsLookup (removeLockFiles env.fs (rootLockPaths dir)).fs (dir ++ ["Default"])
      = fsLookup env.fs (dir ++ ["Default"]) := removeLockFiles_lookup _ _ _ hdefq
  have hdef2 : (removeLockFiles (removeLockFiles env.fs (rootLockPaths dir)).fs
      (defaultLockPaths dir)).removed
      = (defaultLockPaths dir).filter (fun p => removablePath env.fs p) := by
    rw [removeLockFiles_removed_eq _ _ (defaultLockPaths_nodup dir)]
    apply List.filter_congr
    intro p hp
    apply removeLockFiles_removablePath
    intro hmem
    exact default_not_in_root dir p hp (removeLockFiles_removed_subset _ _ _ hmem)
  by_cases hd : (fsLookup env.fs (dir ++ ["Default"])).isSome = true
  · simp [cleanupChromeLocks, hmk, hst, hlook, hd, hroot, hdef2, expectedRemovals]
  · simp [cleanupChromeLocks, hmk, hst, hlook, hd, hroot, expectedRemovals]

/-! ### Helper lemmas about the Go string primitives -/

theorem dropWhile_head_false (p : Char → Bool) :
    ∀ (l : List Char) (x : Char) (xs : List Char), l.dropWhile p = x :: xs → p x = false := by
  intro l
  induction l with
  | nil =>
    intro x xs h
    simp [List.dropWhile] at h
  | cons c cs ih =>
    intro x xs h
    simp only [List.dropWhile] at h
    by_cases hc : p c
    · exact ih x xs (by simpa [hc] using h)
    · simp only [Bool.not_eq_true] at hc
      rw [hc] at h
      simp only [] at h
      have hcx : c = x := (List.cons.injEq c cs x xs ▸ h).1
      rw [← hcx]
      exact hc

theorem splitOnChar_eq (sep : Char) (l : List Char) :
    splitOnChar sep l = l.takeWhile (fun x => x != sep) ::
      (if sep ∈ l then splitOnChar sep ((l.dropWhile (fun x => x != sep)).tail) else []) := by
  induction l with
  | nil => simp [splitOnChar]
  | cons c cs ih =>
    by_cases hc : c = sep
    · subst hc
      simp [splitOnChar, List.takeWhile, List.dropWhile]
    · have hne : (c != sep) = true := by simp [bne_iff_ne, hc]
      have hmem : (sep ∈ c :: cs) = (sep ∈ cs) := by
        simp only [List.mem_cons]
        have : ¬ sep = c := fun h => hc h.symm
        simp [this]
      simp only [splitOnChar, if_neg hc]
      rw [ih]
      simp only [List.takeWhile_cons, List.dropWhile_cons, hne, if_true, hmem]

theorem splitOnChar_headD (sep : Char) (l : List Char) :
    (splitOnChar sep l).headD [] = l.takeWhile (fun x => x != sep) := by
  rw [splitOnChar_eq]
  rfl

theorem splitOnChar_of_mem (sep : Char) (l : List Char) (h : sep ∈ l) :
    splitOnChar sep l = l.takeWhile (fun x => x != sep) ::
      splitOnChar sep ((l.dropWhile (fun x => x != sep)).tail) := by
  rw [splitOnChar_eq]
  simp [h]

theorem splitOnChar_length_two (sep : Char) (l : List Char) (h : sep ∈ l) :
    2 ≤ (splitOnChar sep l).length := by
  rw [splitOnChar_of_mem sep l h]
  rw [splitOnChar_eq]
  simp only [List.length_cons]
  omega

theorem splitOnChar_getD_one (sep : Char) (l : List Char) (h : sep ∈ l) :
    (splitOnChar sep l).getD 1 [] =
      ((l.dropWhile (fun x => x != sep)).tail).takeWhile (fun x => x != sep) := by
  rw [splitOnChar_of_mem sep l h]
  simp only [List.getD_cons_succ, List.getD_cons_zero]
  rw [← splitOnChar_headD]
  rw [splitOnChar_eq]
  rfl

theorem goFields_headD (l : List Char) :
    (goFields l).headD [] = (l.dropWhile goIsSpace).takeWhile (fun c => !goIsSpace c) := by
  unfold goFields
  split
  next heq => simp [heq]
  next x xs heq =>
    have hx : goIsSpace x = false := dropWhile_head_false goIsSpace l x xs heq
    simp [heq, List.takeWhile_cons, hx]

theorem getD_length_sub_one (l : List (List Char)) (h : l ≠ []) :
    l.getD (l.length - 1) [] = l.getLastD [] := by
  induction l with
  | nil => cases h rfl
  | cons a t ih =>
    cases t with
    | nil => simp
    | cons b t2 =>
      have h2 : (b :: t2 : List (List Char)) ≠ [] := by simp
      have h3 : (a :: b :: t2 : List (List Char)).length - 1 = (b :: t2 : List (List Char)).length := by
        simp
      rw [h3]
      have h4 : (a :: b :: t2 : List (List Char)).getD (b :: t2 : List (List Char)).length []
          = (b :: t2 : List (List Char)).getD ((b :: t2 : List (List Char)).length - 1) [] := by
        simp only [List.length_cons, List.getD_cons_succ]
        simp
      rw [h4, ih h2]
      simp [List.getLastD_cons]

theorem removablePath_after_removes (fs : FS) (ps : List FsPath) (q : FsPath)
    (h : removablePath (removeLockFiles fs ps).fs q = true) :
    removablePath fs q = true := by
  induction ps generalizing fs with
  | nil => exact h
  | cons p rest ih =>
    exact removablePath_after_remove fs p q (ih (removeLockFile fs p).fs h)

/-- Evaluation of `isStaleProfile` once the cookie has been read and
parsed and the current hostname obtained. -/
theorem isStaleProfile_parsed (env : Env) (dir : FsPath) (content h : List Char)
    (pid : Int) (cur : List Char)
    (hread : readFile env.fs (dir ++ ["SingletonCookie"]) = ReadResult.ok content)
    (hne : content ≠ [])
    (hparse : parseSingletonCookie content = (h, pid))
    (hcur : env.hostname = some cur) :
    isStaleProfile env dir =
      if h ≠ [] ∧ h ≠ cur then (true, [LogMsg.staleMismatch h cur])
      else if 0 < pid then
        (if isProcessAlive env pid then (false, [LogMsg.mayBeInUse pid])
         else (true, [LogMsg.staleDeadPid pid]))
      else (true, []) := by
  simp only [isStaleProfile, hread, hcur, hparse, hne, if_neg, if_false]

/-! ### Claim theorems -/

/-- C1: when the `SingletonCookie` artifact records a hostname equal to the
current host's hostname and a positive owner pid whose process the liveness
check confirms alive, `cleanupChromeLocks` removes no files at all, leaves
the filesystem unchanged, and emits the "profile may be in use" warning. -/
theorem C1_live_same_host_lock_never_removed (env : Env) (dir : FsPath)
    (content h : List Char) (pid : Int)
    (hmk : env.mkdirOk = true)
    (hread : readFile env.fs (dir ++ ["SingletonCookie"]) = ReadResult.ok content)
    (hne : content ≠ [])
    (hparse : parseSingletonCookie content = (h, pid))
    (hcur : env.hostname = some h)
    (hpid : 0 < pid)
    (halive : isProcessAlive env pid = true) :
    (cleanupChromeLocks env dir).removed = [] ∧
    (cleanupChromeLocks env dir).fs = env.fs ∧
    LogMsg.mayBeInUse pid ∈ (cleanupChromeLocks env dir).logs := by
  have hstale : isStaleProfile env dir = (false, [LogMsg.mayBeInUse pid]) := by
    rw [isStaleProfile_parsed env dir content h pid h hread hne hparse hcur]
    have hcond : ¬ (h ≠ [] ∧ h ≠ h) := by simp
    rw [if_neg hcond, if_pos hpid, if_pos halive]
  simp [cleanupChromeLocks, hmk, hstale]

theorem C1_witness :
    (cleanupChromeLocks envSameHostAlive ["profile"]).removed = [] ∧
    (cleanupChromeLocks envSameHostAlive ["profile"]).fs = envSameHostAlive.fs ∧
    LogMsg.mayBeInUse 1234 ∈ (cleanupChromeLocks envSameHostAlive ["profile"]).logs :=
  C1_live_same_host_lock_never_removed envSameHostAlive ["profile"]
    cookieMyhost "myhost".data 1234 rfl (by decide) (by decide) (by decide) rfl
    (by decide) (by decide)

/-- C2 counterexample: the claim "every artifact whose recorded hostname
differs from the current hostname is stale and has its lock files deleted"
fails when the recorded hostname is the empty string: with cookie content
`"\x001234\x00"` on host `hostb` and pid 1234 alive, the recorded hostname
`""` differs from `"hostb"`, yet the profile is judged not stale and
nothing is removed. -/
theorem C2_counterexample :
    (parseSingletonCookie cookieNoHost).1 ≠ "hostb".data ∧
    envEmptyHostAlive.hostname = some "hostb".data ∧
    (isStaleProfile envEmptyHostAlive ["profile2"]).1 = false ∧
    (cleanupChromeLocks envEmptyHostAlive ["profile2"]).removed = [] := by
  refine ⟨by decide, rfl, by decide, by decide⟩

/-- C2 (amended): for every `SingletonCookie` artifact whose recorded
hostname is nonempty and differs from the current host's hostname,
reclamation classifies the profile as stale and removes every known lock
file name present as a removable entry, in the profile root and, if
present, in the `Default` subdirectory — for any PID-liveness oracle
whatsoever. -/
theorem C2_hostname_mismatch_reclaims (env : Env) (dir : FsPath)
    (content h : List Char) (pid : Int) (cur : List Char)
    (hmk : env.mkdirOk = true)
    (hread : readFile env.fs (dir ++ ["SingletonCookie"]) = ReadResult.ok content)
    (hne : content ≠ [])
    (hparse : parseSingletonCookie content = (h, pid))
    (hh : h ≠ [])
    (hcur : env.hostname = some cur)
    (hdiff : h ≠ cur) :
    ∀ pe : Int → Bool,
      (isStaleProfile { env with procExists := pe } dir).1 = true ∧
      (cleanupChromeLocks { env with procExists := pe } dir).removed =
        expectedRemovals env.fs dir := by
  intro pe
  have hread2 : readFile ({ env with procExists := pe }).fs (dir ++ ["SingletonCookie"])
      = ReadResult.ok content := hread
  have hcur2 : ({ env with procExists := pe }).hostname = some cur := hcur
  have hst : (isStaleProfile { env with procExists := pe } dir).1 = true := by
    rw [isStaleProfile_parsed _ dir content h pid cur hread2 hne hparse hcur2]
    rw [if_pos ⟨hh, hdiff⟩]
  exact ⟨hst, cleanupChromeLocks_stale { env with procExists := pe } dir hmk hst⟩

theorem C2_witness :
    (isStaleProfile envOtherHost ["pb"]).1 = true ∧
    (cleanupChromeLocks envOtherHost ["pb"]).removed =
      expectedRemovals envOtherHost.fs ["pb"] :=
  C2_hostname_mismatch_reclaims envOtherHost ["pb"]
    ("hostx".data ++ [Char.ofNat 0] ++ "77".data ++ [Char.ofNat 0])
    "hostx".data 77 "hosta".data rfl (by decide) (by decide) (by decide)
    (by decide) rfl (by decide) envOtherHost.procExists

/-- C3: a `SingletonCookie` that is absent, unreadable, empty, or whose
content yields neither a usable hostname (empty) nor a positive pid is
treated as stale (fail-open) and all known lock file names present as
removable entries are deleted; the reclamation functions are total and
return no error. -/
theorem C3_fail_open_reclaims (env : Env) (dir : FsPath)
    (hmk : env.mkdirOk = true)
    (hcase : readFile env.fs (dir ++ ["SingletonCookie"]) = ReadResult.notExist
      ∨ readFile env.fs (dir ++ ["SingletonCookie"]) = ReadResult.readErr
      ∨ readFile env.fs (dir ++ ["SingletonCookie"]) = ReadResult.ok []
      ∨ ∃ content, readFile env.fs (dir ++ ["SingletonCookie"]) = ReadResult.ok content
          ∧ content ≠ [] ∧ (parseSingletonCookie content).1 = []
          ∧ (parseSingletonCookie content).2 ≤ 0) :
    (isStaleProfile env dir).1 = true ∧
    (cleanupChromeLocks env dir).removed = expectedRemovals env.fs dir := by
  have hst : (isStaleProfile env dir).1 = true := by
    rcases hcase with h1 | h2 | h3 | ⟨content, hr, hne, hh, hp⟩
    · simp [isStaleProfile, h1]
    · simp [isStaleProfile, h2]
    · simp [isStaleProfile, h3]
    · cases hcur : env.hostname with
      | none => simp [isStaleProfile, hr, hne, hcur]
      | some cur =>
        have hparse : parseSingletonCookie content = ([], (parseSingletonCookie content).2) := by
          rw [← hh]
        rw [isStaleProfile_parsed env dir content [] ((parseSingletonCookie content).2) cur
          hr hne hparse hcur]
        rw [if_neg (by simp)]
        rw [if_neg (by omega)]
  exact ⟨hst, cleanupChromeLocks_stale env dir hmk hst⟩

theorem C3_witness :
    (isStaleProfile envNoCookie ["p3"]).1 = true ∧
    (cleanupChromeLocks envNoCookie ["p3"]).removed =
      expectedRemovals envNoCookie.fs ["p3"] :=
  C3_fail_open_reclaims envNoCookie ["p3"] rfl (Or.inl (by decide))

/-- C4: `SingletonCookie` parsing first tries NUL-separated fields — the
hostname is everything before the first NUL and the pid is parsed from the
second NUL field (the run between the first and second NUL) — and only
when the content contains no NUL byte falls back to whitespace-separated
fields of the trimmed content, with the first field as hostname and the
last field as pid (pid 0 when there are fewer than two fields). -/
theorem C4_parse_tries_nul_then_whitespace (content : List Char) :
    (Char.ofNat 0 ∈ content →
      parseSingletonCookie content =
        (content.takeWhile (fun x => x != Char.ofNat 0),
         atoi (((content.dropWhile (fun x => x != Char.ofNat 0)).tail).takeWhile
           (fun x => x != Char.ofNat 0))))
    ∧ (Char.ofNat 0 ∉ content →
      (parseSingletonCookie content).1 =
        ((trimSpace content).dropWhile goIsSpace).takeWhile (fun c => !goIsSpace c)
      ∧ (2 ≤ (goFields (trimSpace content)).length →
          (parseSingletonCookie content).2 =
            atoi ((goFields (trimSpace content)).getLastD []))
      ∧ ((goFields (trimSpace content)).length < 2 →
          (parseSingletonCookie content).2 = 0)) := by
  constructor
  · intro hmem
    simp only [parseSingletonCookie, if_pos hmem]
    rw [splitOnChar_headD]
    rw [if_pos (splitOnChar_length_two _ _ hmem)]
    rw [splitOnChar_getD_one _ _ hmem]
  · intro hmem
    simp only [parseSingletonCookie, if_neg hmem]
    refine ⟨?_, ?_, ?_⟩
    · exact goFields_headD (trimSpace content)
    · intro h2
      rw [if_pos h2]
      rw [getD_length_sub_one]
      intro hnil
      rw [hnil] at h2
      simp at h2
    · intro h2
      rw [if_neg (by omega)]

theorem C4_witness :
    (Char.ofNat 0 ∈ cookieMyhost ∧
      parseSingletonCookie cookieMyhost =
        (cookieMyhost.takeWhile (fun x => x != Char.ofNat 0),
         atoi (((cookieMyhost.dropWhile (fun x => x != Char.ofNat 0)).tail).takeWhile
           (fun x => x != Char.ofNat 0))))
    ∧ (Char.ofNat 0 ∉ "hosty 88".data ∧
      (parseSingletonCookie "hosty 88".data).1 =
        ((trimSpace "hosty 88".data).dropWhile goIsSpace).takeWhile (fun c => !goIsSpace c)) :=
  ⟨⟨by decide, (C4_parse_tries_nul_then_whitespace cookieMyhost).1 (by decide)⟩,
   ⟨by decide, ((C4_parse_tries_nul_then_whitespace "hosty 88".data).2 (by decide)).1⟩⟩

/-- C5: for a valid id of an existing user, `DeleteDebugLogs` returns the
success "nothing to clear" response when the log file does not exist;
otherwise in-place truncation is attempted first and its success clears;
on its failure the `O_TRUNC` reopen fallback clears; only when both fail
does it return the distinct 409 "process running, stop it first" conflict
if the worker is running, and the generic 500 internal error if not. -/
theorem C5_clear_logs_outcomes (env : ClearEnv) (idRaw : List Char)
    (h1 : trimSpace idRaw ≠ [])
    (h2 : env.users.contains (trimSpace idRaw) = true) :
    (env.logExists = false →
      deleteDebugLogs env idRaw = ClearResult.clearedNothing)
    ∧ (env.logExists = true → env.truncateOk = true →
      deleteDebugLogs env idRaw = ClearResult.cleared)
    ∧ (env.logExists = true → env.truncateOk = false → env.openTruncOk = true →
      deleteDebugLogs env idRaw = ClearResult.cleared)
    ∧ (env.logExists = true → env.truncateOk = false → env.openTruncOk = false →
      env.running = true → deleteDebugLogs env idRaw = ClearResult.conflictRunning)
    ∧ (env.logExists = true → env.truncateOk = false → env.openTruncOk = false →
      env.running = false → deleteDebugLogs env idRaw = ClearResult.internalError) := by
  unfold deleteDebugLogs
  refine ⟨?_, ?_, ?_, ?_, ?_⟩ <;> intros <;> simp_all

theorem C5_witness :
    clearEnvBase.logExists = true ∧ clearEnvBase.truncateOk = false ∧
    clearEnvBase.openTruncOk = false ∧ clearEnvBase.running = true ∧
    deleteDebugLogs clearEnvBase "u1".data = ClearResult.conflictRunning :=
  ⟨rfl, rfl, rfl, rfl,
    (C5_clear_logs_outcomes clearEnvBase "u1".data (by decide) (by decide)).2.2.2.1
      rfl rfl rfl rfl⟩

/-- C6: for a valid id of an existing user whose log file opens and stats
successfully, `DownloadDebugLogs` snapshots the size once, declares it as
`Content-Length`, and transmits exactly the snapshot bytes — whatever the
worker appends to the file during the transfer. -/
theorem C6_download_size_snapshot (env : DlEnv) (idRaw content : List Char)
    (h1 : trimSpace idRaw ≠ [])
    (h2 : env.users.contains (trimSpace idRaw) = true)
    (hopen : env.openResult = OpenResult.opened content)
    (hstat : env.statFailed = false) :
    downloadDebugLogs env idRaw = DlResult.ok content.length content := by
  simp only [downloadDebugLogs, hopen, hstat, h2]
  rw [if_neg h1]
  simp only [Bool.true_eq_false, if_false, Bool.false_eq_true]
  rw [List.take_left]

theorem C6_witness :
    dlEnvGrowing.growth.length = 1000 ∧
    downloadDebugLogs dlEnvGrowing "u1".data =
      DlResult.ok ("hello log line".data).length "hello log line".data :=
  ⟨by
      show (List.replicate 1000 'x').length = 1000
      rw [List.length_replicate],
    C6_download_size_snapshot dlEnvGrowing "u1".data "hello log line".data
      (by decide) (by decide) rfl rfl⟩

/-- C7: auto-start recovery attempts exactly the users whose `AutoStart`
flag is set, one event per user, serially in stored list order, each
attempt with its own 45-second budget; the outcome of one attempt (the
`start` oracle) never changes which users are attempted. -/
theorem C7_auto_start_serial_independent (start : List Char → Nat → Bool)
    (users : List UserConfig) :
    autoStartUsers start users =
      (users.filter (fun u => u.autoStart)).map
        (fun u => if start u.id 45 then StartEvent.ok u.id else StartEvent.failed u.id)
    ∧ (autoStartUsers start users).map StartEvent.uid =
      (users.filter (fun u => u.autoStart)).map (fun u => u.id) := by
  have hloop : ∀ l : List UserConfig, autoStartLoop start l =
      l.map (fun u => if start u.id 45 then StartEvent.ok u.id else StartEvent.failed u.id) := by
    intro l
    induction l with
    | nil => rfl
    | cons u rest ih => simp [autoStartLoop, ih]
  have hmain : autoStartUsers start users =
      (users.filter (fun u => u.autoStart)).map
        (fun u => if start u.id 45 then StartEvent.ok u.id else StartEvent.failed u.id) := by
    unfold autoStartUsers
    by_cases he : (users.filter (fun u => u.autoStart)).isEmpty = true
    · rw [if_pos he]
      rw [List.isEmpty_iff] at he
      rw [he]
      rfl
    · rw [if_neg he]
      exact hloop _
  refine ⟨hmain, ?_⟩
  rw [hmain, List.map_map]
  apply List.map_congr_left
  intro u _
  by_cases hs : start u.id 45 = true <;> simp [StartEvent.uid, hs]

/-- C8: the liveness check is exactly `/proc/<pid>` existence on
non-Windows systems and constantly false on Windows; consequently when
the check comes out false — on Windows always, and on any system where
the `/proc/<pid>` path does not exist (e.g. macOS) — a same-host lock
with a positive owner pid is still classified stale and its lock files
are deleted. -/
theorem C8_liveness_is_proc_existence (env : Env) (pid : Int) :
    (env.goos = "windows" → isProcessAlive env pid = false)
    ∧ (env.goos ≠ "windows" → isProcessAlive env pid = env.procExists pid)
    ∧ (∀ dir content h,
        env.mkdirOk = true →
        readFile env.fs (dir ++ ["SingletonCookie"]) = ReadResult.ok content →
        content ≠ [] →
        parseSingletonCookie content = (h, pid) →
        env.hostname = some h →
        0 < pid →
        isProcessAlive env pid = false →
        (isStaleProfile env dir).1 = true ∧
        (cleanupChromeLocks env dir).removed = expectedRemovals env.fs dir) := by
  refine ⟨?_, ?_, ?_⟩
  · intro hw
    simp [isProcessAlive, hw]
  · intro hw
    cases hpe : env.procExists pid <;> simp [isProcessAlive, hw, hpe]
  · intro dir content h hmk hread hne hparse hcur hpid hdead
    have hst : (isStaleProfile env dir).1 = true := by
      rw [isStaleProfile_parsed env dir content h pid h hread hne hparse hcur]
      rw [if_neg (by simp)]
      rw [if_pos hpid]
      rw [hdead]
      rfl
    exact ⟨hst, cleanupChromeLocks_stale env dir hmk hst⟩

theorem C8_witness :
    isProcessAlive envWindows 99 = false ∧
    envWindows.procExists 99 = true ∧
    (isStaleProfile envWindows ["p8"]).1 = true ∧
    (cleanupChromeLocks envWindows ["p8"]).removed =
      expectedRemovals envWindows.fs ["p8"] := by
  have halive : isProcessAlive envWindows 99 = false :=
    (C8_liveness_is_proc_existence envWindows 99).1 rfl
  have hrest := (C8_liveness_is_proc_existence envWindows 99).2.2 ["p8"]
    ("hosta".data ++ [Char.ofNat 0] ++ "99".data ++ [Char.ofNat 0]) "hosta".data
    rfl (by decide) (by decide) (by decide) rfl (by decide) halive
  exact ⟨halive, by decide, hrest.1, hrest.2⟩

/-- C9: reclamation removes at most the six lock paths (the three lock
names in the profile root and in `Default`), each only when it is present
with a removable kind (regular file, symlink or socket); every path not
removed — including a directory bearing a lock name — resolves afterwards
exactly as before. -/
theorem C9_frame_at_most_lock_paths (env : Env) (dir : FsPath) :
    (∀ p ∈ (cleanupChromeLocks env dir).removed,
      p ∈ rootLockPaths dir ++ defaultLockPaths dir ∧ removablePath env.fs p = true)
    ∧ (∀ q, q ∉ (cleanupChromeLocks env dir).removed →
      fsLookup (cleanupChromeLocks env dir).fs q = fsLookup env.fs q) := by
  unfold cleanupChromeLocks
  by_cases hmk : env.mkdirOk = false
  · simp [hmk]
  · simp only [hmk, if_false]
    by_cases hst : (isStaleProfile env dir).1 = false
    · simp [hst]
    · simp only [hst, if_false]
      by_cases hd : (fsLookup (removeLockFiles env.fs (rootLockPaths dir)).fs
          (dir ++ ["Default"])).isSome = true
      · simp only [hd, if_true]
        constructor
        · intro p hp
          rcases List.mem_append.mp hp with hp2 | hp2
          · exact ⟨List.mem_append.mpr (Or.inl (removeLockFiles_removed_subset _ _ _ hp2)),
              removeLockFiles_removable _ _ _ hp2⟩
          · refine ⟨List.mem_append.mpr (Or.inr (removeLockFiles_removed_subset _ _ _ hp2)), ?_⟩
            exact removablePath_after_removes _ _ _ (removeLockFiles_removable _ _ _ hp2)
        · intro q hq
          have hq1 : q ∉ (removeLockFiles env.fs (rootLockPaths dir)).removed :=
            fun hmem => hq (List.mem_append.mpr (Or.inl hmem))
          have hq2 : q ∉ (removeLockFiles (removeLockFiles env.fs (rootLockPaths dir)).fs
              (defaultLockPaths dir)).removed :=
            fun hmem => hq (List.mem_append.mpr (Or.inr hmem))
          exact (removeLockFiles_lookup _ _ _ hq2).trans (removeLockFiles_lookup _ _ _ hq1)
      · simp only [hd, if_false]
        constructor
        · intro p hp
          exact ⟨List.mem_append.mpr (Or.inl (removeLockFiles_removed_subset _ _ _ hp)),
            removeLockFiles_removable _ _ _ hp⟩
        · intro q hq
          exact removeLockFiles_lookup _ _ _ hq

theorem C9_witness :
    (∀ p ∈ (cleanupChromeLocks envDirLock ["p9"]).removed,
      p ∈ rootLockPaths ["p9"] ++ defaultLockPaths ["p9"] ∧
        removablePath envDirLock.fs p = true)
    ∧ fsLookup (cleanupChromeLocks envDirLock ["p9"]).fs ["p9", "SingletonLock"] =
      fsLookup envDirLock.fs ["p9", "SingletonLock"] :=
  ⟨(C9_frame_at_most_lock_paths envDirLock ["p9"]).1,
    (C9_frame_at_most_lock_paths envDirLock ["p9"]).2 ["p9", "SingletonLock"] (by decide)⟩

/-- C10: when the parsed hostname is empty the hostname-mismatch rule is
skipped entirely — the verdict does not depend on the current hostname —
and staleness is decided by the pid alone: not stale exactly when the pid
is positive and its process is alive (in which case nothing is removed),
stale otherwise. -/
theorem C10_empty_hostname_pid_decides (env : Env) (dir : FsPath)
    (content : List Char) (pid : Int) (cur : List Char)
    (hread : readFile env.fs (dir ++ ["SingletonCookie"]) = ReadResult.ok content)
    (hne : content ≠ [])
    (hparse : parseSingletonCookie content = ([], pid))
    (hcur : env.hostname = some cur) :
    ((isStaleProfile env dir).1 = false ↔ (0 < pid ∧ isProcessAlive env pid = true))
    ∧ (∀ cur2, (isStaleProfile { env with hostname := some cur2 } dir).1 =
        (isStaleProfile env dir).1)
    ∧ (env.mkdirOk = true → 0 < pid → isProcessAlive env pid = true →
        (cleanupChromeLocks env dir).removed = [] ∧
        (cleanupChromeLocks env dir).fs = env.fs) := by
  have heval : ∀ (e : Env) (c : List Char), e.fs = env.fs → e.procExists = env.procExists →
      e.goos = env.goos → e.hostname = some c →
      isStaleProfile e dir =
        if 0 < pid then
          (if isProcessAlive env pid then (false, [LogMsg.mayBeInUse pid])
           else (true, [LogMsg.staleDeadPid pid]))
        else (true, []) := by
    intro e c hefs hepe hegoos hec
    have hread2 : readFile e.fs (dir ++ ["SingletonCookie"]) = ReadResult.ok content := by
      rw [hefs]; exact hread
    rw [isStaleProfile_parsed e dir content [] pid c hread2 hne hparse hec]
    rw [if_neg (by simp)]
    have halive : isProcessAlive e pid = isProcessAlive env pid := by
      simp [isProcessAlive, hepe, hegoos]
    rw [halive]
  have hbase := heval env cur rfl rfl rfl hcur
  refine ⟨?_, ?_, ?_⟩
  · rw [hbase]
    by_cases hp : 0 < pid
    · by_cases ha : isProcessAlive env pid = true
      · simp [hp, ha]
      · simp only [Bool.not_eq_true] at ha
        simp [hp, ha]
    · simp only [if_neg hp]
      simp [hp]
  · intro cur2
    rw [hbase, heval { env with hostname := some cur2 } cur2 rfl rfl rfl rfl]
  · intro hmk hp ha
    have hstale : isStaleProfile env dir = (false, [LogMsg.mayBeInUse pid]) := by
      rw [hbase, if_pos hp, if_pos ha]
    simp [cleanupChromeLocks, hmk, hstale]

theorem C10_witness :
    ((isStaleProfile envEmptyHostAlive2 ["pa"]).1 = false ↔
      (0 < (1234 : Int) ∧ isProcessAlive envEmptyHostAlive2 1234 = true))
    ∧ (cleanupChromeLocks envEmptyHostAlive2 ["pa"]).removed = [] := by
  have h := C10_empty_hostname_pid_decides envEmptyHostAlive2 ["pa"] cookieNoHost 1234
    "hostc".data (by decide) (by decide) (by decide) rfl
  exact ⟨h.1, (h.2.2 rfl (by decide) (by decide)).1⟩

end XhsMcp
